import Mathlib

/-!
Verification development for the AIGM rules-assistant repository.

The development shallowly embeds the two cores of the system:

* the retrieval-augmented answer endpoint (`api/rules/answer.js`):
  `scoreChunk`, `retrieveChunks` and the request `handler`, together with
  the client-side three-sentence safety net of the voice session screen
  (`limitAnswer`, `clientAnswer`);
* the push-to-talk voice session state machine of the session screen
  (`Session`, `step`), driven by speech-capability events.

JavaScript string primitives used by the source (`split` on a regex class,
`includes`, `trim`, `toLowerCase`, `join`) are modelled on `List Char`,
matching ECMAScript semantics on the ASCII inputs the program handles.
All definitions are executable so that concrete runs evaluate by `decide`.
-/

/-! ## JavaScript string primitives -/

/-- Does `small` occur at the start of `big`?  (Helper for `occursIn`.) -/
def leadsCh : List Char → List Char → Bool
  | [], _ => true
  | _ :: _, [] => false
  | a :: as, b :: bs => a == b && leadsCh as bs

/-- Does `small` occur contiguously anywhere inside `big`?  (Helper for
`jsIncludes`.) -/
def occursIn (small : List Char) : List Char → Bool
  | [] => leadsCh small []
  | b :: bs => leadsCh small (b :: bs) || occursIn small bs

/-- Model of JavaScript `haystack.includes(needle)`. -/
def jsIncludes (haystack needle : String) : Bool :=
  occursIn needle.data haystack.data

/-- Split a character list at maximal runs of separators satisfying `p`,
keeping the (possibly empty) segments between runs — the semantics of
JavaScript `String.prototype.split` with a `/[sep]+/` regular expression:
a leading run yields an empty first segment and a trailing run an empty
last segment, and splitting the empty string yields `[[]]`. -/
def splitRuns (p : Char → Bool) : List Char → List (List Char)
  | [] => [[]]
  | c :: cs =>
    if p c then
      match cs with
      | c2 :: _ => if p c2 then splitRuns p cs else [] :: splitRuns p cs
      | [] => [] :: splitRuns p cs
    else
      match splitRuns p cs with
      | t :: ts => (c :: t) :: ts
      | [] => [[c]]

/-- Model of JavaScript `s.split(/\s+/)`. -/
def jsSplitWs (s : String) : List String :=
  (splitRuns Char.isWhitespace s.data).map String.mk

/-- Separator class of the client-side sentence splitter: `/[.!?]+/`. -/
def isSentencePunct (c : Char) : Bool :=
  c == '.' || c == '!' || c == '?'

/-- Model of JavaScript `s.split(/[.!?]+/)` as used by the session screen. -/
def jsSplitPunct (s : String) : List String :=
  (splitRuns isSentencePunct s.data).map String.mk

/-- Model of JavaScript `s.toLowerCase()` (ASCII case folding). -/
def jsToLower (s : String) : String :=
  ⟨s.data.map Char.toLower⟩

/-- Model of JavaScript `s.trim()`: strip leading and trailing whitespace. -/
def jsTrim (s : String) : String :=
  ⟨((s.data.dropWhile Char.isWhitespace).reverse.dropWhile Char.isWhitespace).reverse⟩

/-- Model of JavaScript `array.join(sep)`. -/
def jsJoin (sep : String) : List String → String
  | [] => ""
  | [x] => x
  | x :: xs => x ++ sep ++ jsJoin sep xs

/-- JavaScript truthiness of an optional string value (`undefined` and the
empty string are falsy). -/
def jsTruthy : Option String → Bool
  | none => false
  | some s => s ≠ ""

/-! ## Data model (`api/rules/answer.js` and the rulebook chunk records) -/

/-- A rulebook chunk record (`{id, gameId, page, section, text}`). -/
structure Chunk where
  id : String
  gameId : String
  page : Nat
  «section» : String
  text : String
deriving DecidableEq

/-- A chunk paired with its relevance score, as built inside
`retrieveChunks` (`{chunk, score}`). -/
structure ScoredChunk where
  chunk : Chunk
  score : Nat
deriving DecidableEq

/-- A `(page, section)` source reference as reported in the endpoint
response. -/
structure SourceRef where
  page : Nat
  «section» : String
deriving DecidableEq

/-! ## Retrieval pipeline (`scoreChunk`, `retrieveChunks`) -/

/-- Embedding of `scoreChunk(question, chunk)`: keyword scoring by
whitespace tokenization, substring matching in either direction for
question tokens longer than 2 characters, and a +2 section-label bonus
per question token contained in the lowercased section. The two
`forEach` accumulations of the source become two left folds. -/
def scoreChunk (question : String) (chunk : Chunk) : Nat :=
  let questionWords := jsSplitWs (jsToLower question)
  let chunkWords := jsSplitWs (jsToLower chunk.text)
  let score := questionWords.foldl
    (fun score qWord =>
      if qWord.length > 2 then
        score + (chunkWords.filter
          (fun cWord => jsIncludes cWord qWord || jsIncludes qWord cWord)).length
      else score) 0
  let sectionLower := jsToLower chunk.«section»
  questionWords.foldl
    (fun score qWord => if jsIncludes sectionLower qWord then score + 2 else score)
    score

/-- The specification's description of the scoring function, written from
its words: the sum, over whitespace-separated lowercased question tokens
longer than 2 characters, of the number of lowercased chunk-text tokens
where one token contains the other as a substring, plus a fixed bonus of
2 for each question token that appears as a substring of the chunk's
lowercased section label.  Compared against `scoreChunk` (the embedding
of the source) in the refinement theorem for the scoring claim. -/
def scoreChunkSpec (question : String) (chunk : Chunk) : Nat :=
  let questionWords := jsSplitWs (jsToLower question)
  let chunkWords := jsSplitWs (jsToLower chunk.text)
  ((questionWords.filter (fun qWord => qWord.length > 2)).map
    (fun qWord => (chunkWords.filter
      (fun cWord => jsIncludes cWord qWord || jsIncludes qWord cWord)).length)).sum
  + 2 * (questionWords.filter
      (fun qWord => jsIncludes (jsToLower chunk.«section») qWord)).length

/-- The scored list `chunks.map(chunk => ({chunk, score: scoreChunk(question, chunk)}))`. -/
def scoredList (question : String) (chunks : List Chunk) : List ScoredChunk :=
  chunks.map (fun chunk => ⟨chunk, scoreChunk question chunk⟩)

/-- Descending-score comparison used by the sort
(`.sort((a, b) => b.score - a.score)`). -/
def scoreGE (a b : ScoredChunk) : Prop := b.score ≤ a.score

instance : DecidableRel scoreGE := fun a b => Nat.decLe b.score a.score

instance : IsTotal ScoredChunk scoreGE :=
  ⟨fun a b => show b.score ≤ a.score ∨ a.score ≤ b.score from
    Nat.le_total b.score a.score⟩

instance : IsTrans ScoredChunk scoreGE :=
  ⟨fun _ _ _ hab hbc => Nat.le_trans hbc hab⟩

/-- Embedding of `retrieveChunks(question, chunks, topN = 5)`: score every
chunk, drop score-0 entries, sort descending by score (JavaScript
`Array.prototype.sort` is a stable sort, modelled by the stable
`List.insertionSort`), take the first `topN`, and project the chunks. -/
def retrieveChunks (question : String) (chunks : List Chunk) (topN : Nat := 5) :
    List Chunk :=
  let scored := scoredList question chunks
  ((((scored.filter (fun item => 0 < item.score)).insertionSort scoreGE).take topN).map
    (fun item => item.chunk))

/-! ## The answer endpoint handler -/

/-- Outcome of the OpenAI call as observed by the handler: the `fetch`
promise may reject, the response may carry a non-success status (which the
source turns into a thrown error), `res.json()` may reject on an
unparseable body, or a parsed body yields the optional-chained
`choices?.[0]?.message?.content` value. -/
inductive FetchOutcome where
  | networkError
  | badStatus (status : Nat)
  | badJson
  | parsed (content : Option String)
deriving DecidableEq

/-- The external circumstances of one request: HTTP method, parsed body
fields (`none` models an absent field), the result of reading and parsing
the chunk file (`none` models a thrown read/parse error), whether some
other statement inside the `try` block throws unexpectedly, the
`OPENAI_API_KEY` environment value, and the outcome of the model call. -/
structure HandlerEnv where
  method : String
  gameId : Option String
  question : Option String
  internalError : Bool
  loadResult : Option (List Chunk)
  apiKey : Option String
  fetchOutcome : FetchOutcome
deriving DecidableEq

/-- The observable behaviour of one handler invocation: HTTP status, the
`answer` and `sources` fields of the JSON response, and whether the
external model service was invoked. -/
structure HandlerResult where
  status : Nat
  answer : String
  sources : List SourceRef
  modelCalled : Bool
deriving DecidableEq

/-- Embedding of the default-exported `handler(req, res)` of
`api/rules/answer.js`.  Each early `return res.status(...).json(...)` of
the source becomes a branch producing a `HandlerResult`; `modelCalled`
records whether control reached the `fetch` of the OpenAI endpoint.  The
outer `catch` of the source corresponds to the `internalError` branch. -/
def handler (env : HandlerEnv) : HandlerResult :=
  if env.method ≠ "POST" then
    ⟨405, "Method not allowed", [], false⟩
  else if env.internalError then
    ⟨500, "I had trouble processing your question. Please try again.", [], false⟩
  else if ¬ jsTruthy env.question then
    ⟨400, "Question is required", [], false⟩
  else if ¬ jsTruthy env.gameId then
    ⟨400, "Game ID is required", [], false⟩
  else
    match env.loadResult with
    | none => ⟨500, "I had trouble loading the rulebook. Please try again.", [], false⟩
    | some allChunks =>
      let gameId := env.gameId.getD ""
      let question := env.question.getD ""
      let chunks := allChunks.filter (fun chunk => chunk.gameId == gameId)
      if chunks.length = 0 then
        ⟨404, "No rulebook found for game: " ++ gameId, [], false⟩
      else
        let relevantChunks := retrieveChunks question chunks 5
        if relevantChunks.length = 0 then
          ⟨200, "I couldn't find relevant information in the rulebook excerpts for that question. Please check the physical rulebook or try rephrasing your question.", [], false⟩
        else if ¬ jsTruthy env.apiKey then
          ⟨200, "The rules engine is currently unavailable. Please check your connection or try again later.", [], false⟩
        else
          match env.fetchOutcome with
          | .networkError =>
            ⟨200, "I had trouble reaching the rules engine. Please check your connection or try again.", [], true⟩
          | .badStatus _ =>
            ⟨200, "I had trouble reaching the rules engine. Please check your connection or try again.", [], true⟩
          | .badJson =>
            ⟨200, "I had trouble reaching the rules engine. Please check your connection or try again.", [], true⟩
          | .parsed content =>
            let answer :=
              match content with
              | some c =>
                if jsTrim c ≠ "" then jsTrim c
                else "I couldn't generate an answer. Please try again."
              | none => "I couldn't generate an answer. Please try again."
            ⟨200, answer,
              relevantChunks.map (fun chunk => ⟨chunk.page, chunk.«section»⟩), true⟩

/-! ## Client-side three-sentence safety net (session screen `onresult`) -/

/-- The `allSentences` intermediate of the voice session's `onresult`
handler: split on `/[.!?]+/` and keep the pieces whose trimmed text is
non-empty (`answer.split(/[.!?]+/).filter(s => s.trim().length > 0)`). -/
def sentencesOf (answer : String) : List String :=
  (jsSplitPunct answer).filter (fun s => 0 < (jsTrim s).length)

/-- Embedding of the sentence-limiting block of the voice session's
`onresult` handler: split on `/[.!?]+/`, keep sentences whose trimmed
text is non-empty, keep the first 3, rejoin with `". "`, and append a
final period only when at least one sentence survived. -/
def limitAnswer (answer : String) : String :=
  let limitedSentences := (sentencesOf answer).take 3
  jsJoin ". " limitedSentences ++ (if 0 < limitedSentences.length then "." else "")

/-- Static fallback substituted when the response's `answer` field is
falsy (`response.answer || "I couldn't find a matching rule …"`). -/
def noMatchMsg : String :=
  "I couldn't find a matching rule in the rulebook excerpts."

/-- The text the `onresult` handler appends to the transcript for a given
`response.answer` value: apply the falsy-fallback, then the
three-sentence limit. -/
def clientAnswer (responseAnswer : String) : String :=
  let answer := if responseAnswer = "" then noMatchMsg else responseAnswer
  limitAnswer answer

/-! ## Voice session state machine (session screen speech handlers) -/

/-- Speech-recognition error kinds observed by the `onerror` handler
(`event.error`). -/
inductive ErrKind where
  | noSpeech
  | audioCapture
  | notAllowed
  | network
  | aborted
  | other
deriving DecidableEq

/-- Maximum retry attempts for network errors (`const maxRetries = 3`). -/
def maxRetries : Nat := 3

/-- The mutable session state of the session screen: React state
(`listening`, `error`, `speechSupported`) and refs (`isHoldingRef`,
`recognitionActiveRef`, `retryCountRef`, whether `recognitionRef` is
non-null).  `restartPending` / `retryPending` record an outstanding
`setTimeout` scheduled by `onend` / the network-error branch, and
`startRequests` counts calls of `recognition.start()`. -/
structure Session where
  speechSupported : Bool
  hasRecognition : Bool
  isHolding : Bool
  recognitionActive : Bool
  listening : Bool
  retryCount : Nat
  error : Option String
  restartPending : Bool
  retryPending : Bool
  startRequests : Nat
deriving DecidableEq

/-- The events that drive the session: user press/release of the hold
button, the capability callbacks, and the two scheduled timers firing. -/
inductive SEvent where
  | press
  | release
  | started
  | ended
  | errored (kind : ErrKind)
  | restartTimer
  | retryTimer
deriving DecidableEq

/-- Transient retry message
(``Connection issue (retry ${retryCountRef.current}/${maxRetries})...``). -/
def retryMsg (n : Nat) : String :=
  "Connection issue (retry " ++ toString n ++ "/" ++ toString maxRetries ++ ")..."

/-- Fatal network-error guidance message of the `onerror` handler. -/
def fatalNetworkMsg : String :=
  "Cannot connect to speech recognition service. This may be due to:\n• Firewall blocking Google services\n• VPN or network restrictions\n• Regional service limitations\n\nTry refreshing the page or check your network settings."

/-- Embedding of the `onerror` handler: clear the active/listening flags,
then classify the error kind; `no-speech` and `aborted` are benign,
`audio-capture`, `not-allowed` and unknown kinds are fatal, and `network`
retries (scheduling a delayed `recognition.start()`) while the button is
held and fewer than `maxRetries` retries have been used, otherwise turns
fatal. -/
def stepError (kind : ErrKind) (s : Session) : Session :=
  let s := { s with recognitionActive := false, listening := false }
  match kind with
  | .noSpeech => { s with error := none }
  | .audioCapture =>
    { s with isHolding := false,
             error := some "Microphone not found or not accessible. Please check your microphone settings." }
  | .notAllowed =>
    { s with isHolding := false,
             error := some "Microphone permission denied. Please allow microphone access in your browser settings and refresh the page." }
  | .network =>
    if s.isHolding ∧ s.retryCount < maxRetries then
      { s with retryCount := s.retryCount + 1,
               retryPending := true,
               error := some (retryMsg (s.retryCount + 1)) }
    else
      { s with isHolding := false, retryCount := 0,
               error := some fatalNetworkMsg }
  | .aborted => { s with retryCount := 0, error := none }
  | .other =>
    { s with isHolding := false,
             error := some "Speech recognition unavailable. Please try again." }

/-- Embedding of the session screen's event handling: `startListening`,
`stopListening`, `onstart`, `onend`, `onerror`, and the two `setTimeout`
callbacks (the 100ms restart after `onend` and the 500ms retry after a
network error). -/
def step (e : SEvent) (s : Session) : Session :=
  match e with
  | .press =>
    if ¬ s.speechSupported ∨ ¬ s.hasRecognition then
      { s with error := some (if ¬ s.hasRecognition then
          "Speech recognition not initialized. Please refresh the page."
        else
          "Speech recognition is not available in this browser.") }
    else
      let s := { s with isHolding := true, error := none, retryCount := 0 }
      if ¬ s.recognitionActive then
        { s with startRequests := s.startRequests + 1 }
      else s
  | .release =>
    let s := { s with isHolding := false }
    if s.hasRecognition ∧ s.recognitionActive then
      { s with recognitionActive := false }
    else s
  | .started =>
    { s with recognitionActive := true, listening := true,
             error := none, retryCount := 0 }
  | .ended =>
    let s := { s with recognitionActive := false, listening := false }
    if s.isHolding ∧ s.hasRecognition then
      { s with restartPending := true }
    else s
  | .errored kind => stepError kind s
  | .restartTimer =>
    let s := { s with restartPending := false }
    if s.isHolding ∧ s.hasRecognition then
      { s with startRequests := s.startRequests + 1 }
    else s
  | .retryTimer =>
    let s := { s with retryPending := false }
    if s.isHolding ∧ s.hasRecognition ∧ ¬ s.recognitionActive then
      { s with startRequests := s.startRequests + 1 }
    else s

/-- Fold a list of events over the state. -/
def run (events : List SEvent) (s : Session) : Session :=
  events.foldl (fun s e => step e s) s

/-- The state after initialization succeeds and before any interaction. -/
def freshSession : Session :=
  { speechSupported := true
    hasRecognition := true
    isHolding := false
    recognitionActive := false
    listening := false
    retryCount := 0
    error := none
    restartPending := false
    retryPending := false
    startRequests := 0 }

/-! ## Concrete data for witnesses and counterexamples -/

/-- A rulebook chunk about building roads. -/
def roadChunk : Chunk :=
  ⟨"catan-1", "catan-base", 5, "Building Roads", "Roads cost one brick and one wood to build."⟩

/-- A rulebook chunk about trading. -/
def tradeChunk : Chunk :=
  ⟨"catan-2", "catan-base", 9, "Trading", "You may trade resources with other players."⟩

/-- A tiny two-chunk rulebook. -/
def demoChunks : List Chunk := [roadChunk, tradeChunk]

/-- A fully successful request environment. -/
def demoEnv : HandlerEnv :=
  { method := "POST"
    gameId := some "catan-base"
    question := some "How do I build a road?"
    internalError := false
    loadResult := some demoChunks
    apiKey := some "sk-demo"
    fetchOutcome := .parsed (some "Roads cost one brick and one wood.") }

/-- A successful request environment whose model answer consists only of
sentence punctuation. -/
def dotsEnv : HandlerEnv :=
  { demoEnv with fetchOutcome := .parsed (some "...") }

/-- A request for a game with no chunks in the store. -/
def unknownGameEnv : HandlerEnv :=
  { demoEnv with gameId := some "unknown-game" }

/-- A request whose question matches no chunk (every score is 0). -/
def noScoreEnv : HandlerEnv :=
  { demoEnv with question := some "zzz qqq" }

/-- A successful-retrieval request with no API key configured. -/
def noKeyEnv : HandlerEnv :=
  { demoEnv with apiKey := none }

/-- A successful-retrieval request whose model call rejects at the network
level. -/
def netErrEnv : HandlerEnv :=
  { demoEnv with fetchOutcome := .networkError }

/-- A successful-retrieval request whose model call returns a non-success
HTTP status. -/
def badStatusEnv : HandlerEnv :=
  { demoEnv with fetchOutcome := .badStatus 500 }

/-- A successful-retrieval request whose model response body fails to
parse. -/
def badJsonEnv : HandlerEnv :=
  { demoEnv with fetchOutcome := .badJson }

/-- A session state where the user is holding the button with capture
active. -/
def heldSession : Session :=
  { freshSession with isHolding := true, recognitionActive := true,
                      listening := true, startRequests := 1 }

/-- A session state after the user released the button. -/
def releasedSession : Session :=
  { freshSession with isHolding := false, startRequests := 1 }

/-- Event trace of the three-consecutive-network-errors scenario: a fresh
press, then each network error followed by its scheduled retry firing. -/
def threeErrTrace : List SEvent :=
  [.press, .errored .network, .retryTimer, .errored .network, .retryTimer,
   .errored .network]

/-- The same scenario continued with the third retry firing and a fourth
consecutive network error. -/
def fourErrTrace : List SEvent :=
  threeErrTrace ++ [.retryTimer, .errored .network]

/-! ## Helper lemmas -/

theorem scoreFoldText (cw : List String) :
    ∀ (l : List String) (n : Nat),
      l.foldl (fun score qWord =>
        if qWord.length > 2 then
          score + (cw.filter
            (fun cWord => jsIncludes cWord qWord || jsIncludes qWord cWord)).length
        else score) n
      = n + ((l.filter (fun qWord => qWord.length > 2)).map
          (fun qWord => (cw.filter
            (fun cWord => jsIncludes cWord qWord || jsIncludes qWord cWord)).length)).sum
  | [], n => by simp
  | x :: xs, n => by
    by_cases h : x.length > 2 <;>
      simp [List.filter_cons, h, scoreFoldText cw xs, Nat.add_assoc]

theorem scoreFoldSection (sec : String) :
    ∀ (l : List String) (n : Nat),
      l.foldl (fun score qWord =>
        if jsIncludes sec qWord then score + 2 else score) n
      = n + 2 * (l.filter (fun qWord => jsIncludes sec qWord)).length
  | [], n => by simp
  | x :: xs, n => by
    by_cases h : jsIncludes sec x
    · simp [List.filter_cons, h, scoreFoldSection sec xs, Nat.mul_succ]
      omega
    · simp [List.filter_cons, h, scoreFoldSection sec xs]

theorem filter_scoreEq_orderedInsert (s : Nat) (x : ScoredChunk) :
    ∀ m : List ScoredChunk,
      (m.orderedInsert scoreGE x).filter (fun sc => sc.score == s) =
        if x.score == s then x :: m.filter (fun sc => sc.score == s)
        else m.filter (fun sc => sc.score == s)
  | [] => by
    by_cases h : x.score == s <;> simp [List.orderedInsert, List.filter_cons, h]
  | b :: bs => by
    by_cases hr : scoreGE x b
    · by_cases h : x.score == s <;>
        simp [List.orderedInsert, hr, List.filter_cons, h]
    · have hxb : x.score < b.score := by
        simpa [scoreGE, Nat.not_le] using hr
      have hrec := filter_scoreEq_orderedInsert s x bs
      by_cases h : x.score == s
      · have hbs : (b.score == s) = false := by
          have : x.score = s := by simpa using h
          simp [beq_iff_eq]; omega
        simp [List.orderedInsert, hr, List.filter_cons, hbs, hrec, h]
      · simp [List.orderedInsert, hr, List.filter_cons, hrec, h]

theorem filter_scoreEq_insertionSort (s : Nat) :
    ∀ l : List ScoredChunk,
      (l.insertionSort scoreGE).filter (fun sc => sc.score == s) =
        l.filter (fun sc => sc.score == s)
  | [] => rfl
  | x :: xs => by
    by_cases h : x.score == s <;>
      simp [List.insertionSort, filter_scoreEq_orderedInsert, h,
        filter_scoreEq_insertionSort s xs, List.filter_cons]

theorem takeLead {α : Type} (l : List α) (n : Nat) : l.take n <+: l :=
  ⟨l.drop n, List.take_append_drop n l⟩

theorem leadOfFilter {α : Type} (p : α → Bool) {l₁ l₂ : List α} (h : l₁ <+: l₂) :
    l₁.filter p <+: l₂.filter p := by
  obtain ⟨t, rfl⟩ := h
  exact ⟨t.filter p, by simp⟩

theorem leadOfMap {α β : Type} (f : α → β) {l₁ l₂ : List α} (h : l₁ <+: l₂) :
    l₁.map f <+: l₂.map f := by
  obtain ⟨t, rfl⟩ := h
  exact ⟨t.map f, by simp⟩

theorem mem_scoredList {q : String} {chunks : List Chunk} {sc : ScoredChunk}
    (h : sc ∈ scoredList q chunks) :
    sc.chunk ∈ chunks ∧ sc.score = scoreChunk q sc.chunk := by
  obtain ⟨c, hc, rfl⟩ := List.mem_map.1 h
  exact ⟨hc, rfl⟩

theorem mem_sortedPos {q : String} {chunks : List Chunk} {sc : ScoredChunk}
    (h : sc ∈ ((scoredList q chunks).filter
      (fun item => 0 < item.score)).insertionSort scoreGE) :
    0 < sc.score ∧ sc.chunk ∈ chunks ∧ sc.score = scoreChunk q sc.chunk := by
  have h' : sc ∈ (scoredList q chunks).filter (fun item => 0 < item.score) :=
    (List.perm_insertionSort scoreGE _).subset h
  have h'' := List.mem_filter.1 h'
  obtain ⟨hm, he⟩ := mem_scoredList h''.1
  exact ⟨by simpa using h''.2, hm, he⟩

theorem mem_retrieveChunks {q : String} {chunks : List Chunk} {topN : Nat} {c : Chunk}
    (h : c ∈ retrieveChunks q chunks topN) :
    c ∈ chunks ∧ 0 < scoreChunk q c := by
  unfold retrieveChunks at h
  obtain ⟨sc, hsc, rfl⟩ := List.mem_map.1 h
  have hsc' := (List.take_sublist _ _).subset hsc
  obtain ⟨hpos, hmem, heq⟩ := mem_sortedPos hsc'
  exact ⟨hmem, heq ▸ hpos⟩

theorem retrieveChunks_length_le (q : String) (chunks : List Chunk) (topN : Nat) :
    (retrieveChunks q chunks topN).length ≤ topN := by
  unfold retrieveChunks
  simp

theorem retrieveChunks_sorted (q : String) (chunks : List Chunk) (topN : Nat) :
    ((retrieveChunks q chunks topN).map (fun c => scoreChunk q c)).Sorted
      (fun a b => b ≤ a) := by
  unfold retrieveChunks
  have hsorted : List.Sorted scoreGE
      (((scoredList q chunks).filter (fun item => 0 < item.score)).insertionSort scoreGE) :=
    List.sorted_insertionSort scoreGE _
  have htake := List.Pairwise.sublist (List.take_sublist topN _) hsorted
  rw [List.map_map, List.Sorted, List.pairwise_map]
  refine List.Pairwise.imp_of_mem ?_ htake
  intro a b ha hb hab
  have hea := (mem_sortedPos ((List.take_sublist _ _).subset ha)).2.2
  have heb := (mem_sortedPos ((List.take_sublist _ _).subset hb)).2.2
  show scoreChunk q b.chunk ≤ scoreChunk q a.chunk
  rw [← hea, ← heb]
  exact hab

theorem retrieveChunks_nil_of_zero (q : String) (chunks : List Chunk) (topN : Nat)
    (h : ∀ c ∈ chunks, scoreChunk q c = 0) :
    retrieveChunks q chunks topN = [] := by
  unfold retrieveChunks
  have hnil : (scoredList q chunks).filter (fun item => 0 < item.score) = [] := by
    rw [List.filter_eq_nil_iff]
    intro sc hsc
    obtain ⟨hm, he⟩ := mem_scoredList hsc
    simp [he, h _ hm]
  simp [hnil]

theorem retrieveChunks_stable (q : String) (chunks : List Chunk) (topN s : Nat) :
    (retrieveChunks q chunks topN).filter (fun c => scoreChunk q c == s) <+:
      chunks.filter (fun c => scoreChunk q c == s) := by
  by_cases hs : s = 0
  · subst hs
    have hnil : (retrieveChunks q chunks topN).filter
        (fun c => scoreChunk q c == 0) = [] := by
      rw [List.filter_eq_nil_iff]
      intro c hc
      have := (mem_retrieveChunks hc).2
      simp
      omega
    rw [hnil]
    exact ⟨_, rfl⟩
  · simp only [retrieveChunks]
    rw [List.filter_map]
    have hcongr : (List.take topN (((scoredList q chunks).filter
            (fun item => 0 < item.score)).insertionSort scoreGE)).filter
          ((fun c => scoreChunk q c == s) ∘ (fun item : ScoredChunk => item.chunk)) =
        (List.take topN (((scoredList q chunks).filter
            (fun item => 0 < item.score)).insertionSort scoreGE)).filter
          (fun sc => sc.score == s) := by
      apply List.filter_congr
      intro sc hsc
      have he := (mem_sortedPos ((List.take_sublist _ _).subset hsc)).2.2
      simp [Function.comp, he]
    rw [hcongr]
    have hstep : ((((scoredList q chunks).filter
            (fun item => 0 < item.score)).insertionSort scoreGE)).filter
          (fun sc => sc.score == s) =
        (scoredList q chunks).filter (fun sc => sc.score == s) := by
      rw [filter_scoreEq_insertionSort]
      rw [List.filter_filter]
      apply List.filter_congr
      intro sc _
      by_cases h : sc.score == s
      · have hss : sc.score = s := by simpa using h
        simp [h, hss, Nat.pos_of_ne_zero hs]
      · simp [h]
    have hlead : (List.take topN (((scoredList q chunks).filter
            (fun item => 0 < item.score)).insertionSort scoreGE)).filter
          (fun sc => sc.score == s) <+:
        (scoredList q chunks).filter (fun sc => sc.score == s) := by
      rw [← hstep]
      exact leadOfFilter _ (takeLead _ _)
    have hmap := leadOfMap (fun item : ScoredChunk => item.chunk) hlead
    have hfinal : ((scoredList q chunks).filter (fun sc => sc.score == s)).map
        (fun item : ScoredChunk => item.chunk) =
        chunks.filter (fun c => scoreChunk q c == s) := by
      simp only [scoredList]
      rw [List.filter_map, List.map_map]
      have hid : ((fun item : ScoredChunk => item.chunk) ∘
          fun chunk => ScoredChunk.mk chunk (scoreChunk q chunk)) = id := rfl
      rw [hid, List.map_id]
      rfl
    rw [hfinal] at hmap
    exact hmap

theorem splitRuns_ne_nil (p : Char → Bool) : ∀ l : List Char, splitRuns p l ≠ [] := by
  intro l
  induction l with
  | nil => simp [splitRuns]
  | cons c cs ih =>
    simp only [splitRuns]
    by_cases hc : p c
    · cases cs with
      | nil => simp [hc]
      | cons c2 cs2 =>
        by_cases h2 : p c2 <;> simp [hc, h2, ih]
    · cases hsr : splitRuns p cs with
      | nil => exact absurd hsr ih
      | cons t ts => simp [hc, hsr]

theorem splitRuns_sep_one (p : Char → Bool) (a : Char) (ha : p a = true) :
    splitRuns p [a] = [[], []] := by
  simp [splitRuns, ha]

theorem splitRuns_sep_cons (p : Char → Bool) (a c2 : Char) (cs2 : List Char)
    (ha : p a = true) :
    splitRuns p (a :: c2 :: cs2) =
      if p c2 then splitRuns p (c2 :: cs2) else [] :: splitRuns p (c2 :: cs2) := by
  simp only [splitRuns, ha, if_true]

theorem splitRuns_nonsep (p : Char → Bool) (a : Char) (cs : List Char)
    (ha : p a = false) :
    splitRuns p (a :: cs) =
      match splitRuns p cs with
      | t :: ts => (a :: t) :: ts
      | [] => [[a]] := by
  simp only [splitRuns, ha, Bool.false_eq_true, if_false]

theorem mem_splitRuns_no_sep (p : Char → Bool) :
    ∀ (l t : List Char), t ∈ splitRuns p l → ∀ c ∈ t, p c = false := by
  intro l
  induction l with
  | nil =>
    intro t ht c hc
    simp [splitRuns] at ht
    subst ht
    simp at hc
  | cons a as ih =>
    intro t ht c hc
    by_cases ha : p a
    · cases as with
      | nil =>
        rw [splitRuns_sep_one p a ha] at ht
        simp at ht
        subst ht
        simp at hc
      | cons a2 as2 =>
        rw [splitRuns_sep_cons p a a2 as2 ha] at ht
        by_cases h2 : p a2
        · rw [if_pos h2] at ht
          exact ih t ht c hc
        · rw [if_neg h2] at ht
          rcases List.mem_cons.1 ht with h | h
          · subst h
            simp at hc
          · exact ih t h c hc
    · have ha' : p a = false := by simpa using ha
      cases hsr : splitRuns p as with
      | nil => exact absurd hsr (splitRuns_ne_nil p as)
      | cons u us =>
        rw [splitRuns_nonsep p a as ha', hsr] at ht
        rcases List.mem_cons.1 ht with h | h
        · subst h
          rcases List.mem_cons.1 hc with h | h
          · subst h
            exact ha'
          · exact ih u (by rw [hsr]; simp) c h
        · exact ih t (by rw [hsr]; exact List.mem_cons_of_mem u h) c hc

theorem splitRuns_append_sep (p : Char → Bool) (c : Char) (hc : p c = true) :
    ∀ l : List Char, (∀ x ∈ l, p x = false) → splitRuns p (l ++ [c]) = [l, []] := by
  intro l
  induction l with
  | nil => intro _; simp [splitRuns, hc]
  | cons a as ih =>
    intro h
    have ha : p a = false := h a (by simp)
    have hrest := ih (fun x hx => h x (by simp [hx]))
    simp [splitRuns, ha, hrest]

theorem data_append (s t : String) : (s ++ t).data = s.data ++ t.data := rfl

theorem append_ne_empty_left {a : String} (b : String) (ha : a ≠ "") :
    a ++ b ≠ "" := by
  intro h
  have hd := congrArg String.data h
  rw [data_append] at hd
  simp only [List.append_eq_nil] at hd
  exact ha (by cases a; simp at hd; simp [hd.1])

theorem append_dot_ne_empty (a : String) : a ++ "." ≠ "" := by
  intro h
  have hd := congrArg String.data h
  rw [data_append] at hd
  simp at hd

theorem mem_sentencesOf {s t : String} (h : t ∈ sentencesOf s) :
    0 < (jsTrim t).length ∧ ∀ c ∈ t.data, isSentencePunct c = false := by
  unfold sentencesOf jsSplitPunct at h
  have h1 := List.mem_filter.1 h
  obtain ⟨u, hu, rfl⟩ := List.mem_map.1 h1.1
  refine ⟨by simpa using h1.2, ?_⟩
  intro c hc
  exact mem_splitRuns_no_sep _ _ u hu c hc

theorem sentencesOf_single_fix (t : String)
    (hpf : ∀ c ∈ t.data, isSentencePunct c = false)
    (htr : 0 < (jsTrim t).length) :
    sentencesOf (t ++ ".") = [t] := by
  unfold sentencesOf jsSplitPunct
  have hdata : (t ++ ".").data = t.data ++ ['.'] := rfl
  rw [hdata, splitRuns_append_sep isSentencePunct '.' (by decide) t.data hpf]
  show (([t, ""] : List String).filter (fun s => 0 < (jsTrim s).length)) = [t]
  have h2 : ¬ 0 < (jsTrim "").length := by decide
  rw [List.filter_cons, List.filter_cons]
  simp [htr, h2]

theorem limitAnswer_nil {s : String} (h : sentencesOf s = []) :
    limitAnswer s = "" := by
  simp only [limitAnswer, h]
  rfl

theorem limitAnswer_single {s t : String} (h : sentencesOf s = [t]) :
    limitAnswer s = t ++ "." := by
  simp only [limitAnswer, h]
  simp [jsJoin]

theorem limitAnswer_ne_empty {s : String} (h : sentencesOf s ≠ []) :
    limitAnswer s ≠ "" := by
  simp only [limitAnswer]
  obtain ⟨t, ts, hts⟩ := List.exists_cons_of_ne_nil h
  rw [hts]
  simp only [List.take_succ_cons, List.length_cons]
  rw [if_pos (Nat.succ_pos _)]
  exact append_dot_ne_empty _

theorem handler_answer_ne_empty (env : HandlerEnv) : (handler env).answer ≠ "" := by
  unfold handler
  dsimp only
  repeat' split
  all_goals first
    | decide
    | exact append_ne_empty_left _ (by decide)
    | assumption
    | exact (by decide : ("I couldn't generate an answer. Please try again." : String) ≠ "")

theorem handler_status_mem (env : HandlerEnv) :
    (handler env).status ∈ ([200, 400, 404, 405, 500] : List Nat) := by
  unfold handler
  dsimp only
  repeat' split
  all_goals first
    | decide
    | exact (by decide : (200 : Nat) ∈ ([200, 400, 404, 405, 500] : List Nat))
    | exact (by decide : (404 : Nat) ∈ ([200, 400, 404, 405, 500] : List Nat))

theorem handler_sources_from_store (env : HandlerEnv) (allChunks : List Chunk)
    (hload : env.loadResult = some allChunks) :
    ∀ src ∈ (handler env).sources,
      ∃ c, c ∈ allChunks ∧ c.gameId = env.gameId.getD "" ∧
        src = SourceRef.mk c.page c.«section» := by
  unfold handler
  rw [hload]
  dsimp only
  repeat' split
  all_goals intro src hsrc
  all_goals first
    | exact absurd hsrc (List.not_mem_nil src)
    | (obtain ⟨c, hc, rfl⟩ := List.mem_map.1 hsrc
       have hf := List.mem_filter.1 (mem_retrieveChunks hc).1
       exact ⟨c, hf.1, by simpa using hf.2, rfl⟩)

/-! ## Claim theorems -/

/-- C3: for every question, chunk list and `topN`, `retrieveChunks` returns
only chunks with score strictly greater than zero, at most `topN` of them,
ordered by descending score with ties preserving the original input order
(for every score class, the output's subsequence of that class is a prefix
of the input's), and returns the empty sequence (rather than failing — it
is a total function) when no chunk scores above zero. -/
theorem retrieve_correct (question : String) (chunks : List Chunk) (topN : Nat) :
    (∀ c ∈ retrieveChunks question chunks topN, 0 < scoreChunk question c) ∧
    (retrieveChunks question chunks topN).length ≤ topN ∧
    ((retrieveChunks question chunks topN).map (fun c => scoreChunk question c)).Sorted
      (fun a b => b ≤ a) ∧
    (∀ s : Nat, (retrieveChunks question chunks topN).filter
        (fun c => scoreChunk question c == s) <+:
      chunks.filter (fun c => scoreChunk question c == s)) ∧
    ((∀ c ∈ chunks, scoreChunk question c = 0) →
      retrieveChunks question chunks topN = []) :=
  ⟨fun _ hc => (mem_retrieveChunks hc).2,
   retrieveChunks_length_le question chunks topN,
   retrieveChunks_sorted question chunks topN,
   retrieveChunks_stable question chunks topN,
   retrieveChunks_nil_of_zero question chunks topN⟩

set_option maxRecDepth 8192 in
/-- Witness for `retrieve_correct` at the demo rulebook: the road chunk is
returned with positive score, and a non-matching question retrieves
nothing. -/
theorem retrieve_correct_witness :
    0 < scoreChunk "How do I build a road?" roadChunk ∧
    retrieveChunks "zzz qqq" demoChunks 5 = [] :=
  ⟨(retrieve_correct "How do I build a road?" demoChunks 5).1 roadChunk (by decide),
   (retrieve_correct "zzz qqq" demoChunks 5).2.2.2.2 (by decide)⟩

/-- C4: `scoreChunk` computes exactly the sum, over whitespace-separated
lowercased question tokens longer than 2 characters, of the number of
lowercased chunk-text tokens where one token contains the other as a
substring, plus a fixed bonus of 2 for each question token (of any
length) appearing as a substring of the lowercased section label —
`scoreChunkSpec`, written from the specification's words. -/
theorem scoreChunk_eq_spec (question : String) (chunk : Chunk) :
    scoreChunk question chunk = scoreChunkSpec question chunk := by
  simp only [scoreChunk, scoreChunkSpec]
  rw [scoreFoldText, scoreFoldSection]
  omega

/-- C2: every scored chunk, every retrieved chunk, and every
`(page, section)` pair in the handler's reported sources comes from a
chunk whose `gameId` equals the queried one; retrieval never crosses the
partition selected by the request. -/
theorem retrieval_partition_invariant (question gameId : String)
    (allChunks : List Chunk) (topN : Nat) (env : HandlerEnv)
    (store : List Chunk) (hload : env.loadResult = some store) :
    (∀ sc ∈ scoredList question (allChunks.filter (fun ch => ch.gameId == gameId)),
        sc.chunk.gameId = gameId) ∧
    (∀ c ∈ retrieveChunks question
        (allChunks.filter (fun ch => ch.gameId == gameId)) topN,
        c.gameId = gameId) ∧
    (∀ src ∈ (handler env).sources,
        ∃ c, c ∈ store ∧ c.gameId = env.gameId.getD "" ∧
          src = SourceRef.mk c.page c.«section») := by
  refine ⟨fun sc hsc => ?_, fun c hc => ?_, handler_sources_from_store env store hload⟩
  · have hm := (mem_scoredList hsc).1
    simpa using (List.mem_filter.1 hm).2
  · have hm := (mem_retrieveChunks hc).1
    simpa using (List.mem_filter.1 hm).2

set_option maxRecDepth 8192 in
/-- Witness for `retrieval_partition_invariant` on a successful demo
request: the retrieved road chunk carries the queried game id, and the
reported source pair traces back to a stored chunk of that game. -/
theorem retrieval_partition_invariant_witness :
    roadChunk.gameId = "catan-base" ∧
    (∃ c, c ∈ demoChunks ∧ c.gameId = demoEnv.gameId.getD "" ∧
      SourceRef.mk 5 "Building Roads" = SourceRef.mk c.page c.«section») :=
  ⟨(retrieval_partition_invariant "How do I build a road?" "catan-base"
      demoChunks 5 demoEnv demoChunks rfl).2.1 roadChunk (by decide),
   (retrieval_partition_invariant "How do I build a road?" "catan-base"
      demoChunks 5 demoEnv demoChunks rfl).2.2 (SourceRef.mk 5 "Building Roads")
      (by decide)⟩

/-- C5: for every request whose gameId selects an empty chunk partition,
or whose question retrieves zero positively-scoring chunks, the handler
returns the deterministic fallback result with empty sources and the
external model service is not invoked (`modelCalled = false`). -/
theorem fallback_paths_no_model_call (env : HandlerEnv) (allChunks : List Chunk)
    (hm : env.method = "POST") (hie : env.internalError = false)
    (hq : jsTruthy env.question = true) (hg : jsTruthy env.gameId = true)
    (hload : env.loadResult = some allChunks) :
    (allChunks.filter (fun chunk => chunk.gameId == env.gameId.getD "") = [] →
      handler env =
        ⟨404, "No rulebook found for game: " ++ env.gameId.getD "", [], false⟩) ∧
    (allChunks.filter (fun chunk => chunk.gameId == env.gameId.getD "") ≠ [] →
      retrieveChunks (env.question.getD "")
        (allChunks.filter (fun chunk => chunk.gameId == env.gameId.getD "")) 5 = [] →
      handler env =
        ⟨200, "I couldn't find relevant information in the rulebook excerpts for that question. Please check the physical rulebook or try rephrasing your question.", [], false⟩) := by
  constructor
  · intro hempty
    unfold handler
    rw [hload]
    simp [hm, hie, hq, hg, hempty]
  · intro hne hret
    unfold handler
    rw [hload]
    simp [hm, hie, hq, hg, hne, hret]

set_option maxRecDepth 8192 in
/-- Witness for `fallback_paths_no_model_call`: the unknown-game request
and the zero-scoring request both produce their fallback responses. -/
theorem fallback_paths_no_model_call_witness :
    handler unknownGameEnv =
      ⟨404, "No rulebook found for game: " ++ unknownGameEnv.gameId.getD "", [], false⟩ ∧
    handler noScoreEnv =
      ⟨200, "I couldn't find relevant information in the rulebook excerpts for that question. Please check the physical rulebook or try rephrasing your question.", [], false⟩ :=
  ⟨(fallback_paths_no_model_call unknownGameEnv demoChunks rfl rfl (by decide)
      (by decide) rfl).1 (by decide),
   (fallback_paths_no_model_call noScoreEnv demoChunks rfl rfl (by decide)
      (by decide) rfl).2 (by decide) (by decide)⟩

/-- C6: for every model-service failure mode — missing API credential,
network failure of the `fetch`, non-success HTTP status, malformed
(unparseable) response body — the handler returns a fixed degraded-service
message with HTTP 200 and empty sources; the failure is absorbed here and
never escapes as an exception (the handler is a total function producing
these results). -/
theorem model_failure_degraded (env : HandlerEnv) (allChunks : List Chunk)
    (hm : env.method = "POST") (hie : env.internalError = false)
    (hq : jsTruthy env.question = true) (hg : jsTruthy env.gameId = true)
    (hload : env.loadResult = some allChunks)
    (hne : allChunks.filter (fun chunk => chunk.gameId == env.gameId.getD "") ≠ [])
    (hret : retrieveChunks (env.question.getD "")
      (allChunks.filter (fun chunk => chunk.gameId == env.gameId.getD "")) 5 ≠ []) :
    (jsTruthy env.apiKey = false →
      handler env = ⟨200, "The rules engine is currently unavailable. Please check your connection or try again later.", [], false⟩) ∧
    (jsTruthy env.apiKey = true → env.fetchOutcome = .networkError →
      handler env = ⟨200, "I had trouble reaching the rules engine. Please check your connection or try again.", [], true⟩) ∧
    (∀ st : Nat, jsTruthy env.apiKey = true → env.fetchOutcome = .badStatus st →
      handler env = ⟨200, "I had trouble reaching the rules engine. Please check your connection or try again.", [], true⟩) ∧
    (jsTruthy env.apiKey = true → env.fetchOutcome = .badJson →
      handler env = ⟨200, "I had trouble reaching the rules engine. Please check your connection or try again.", [], true⟩) := by
  refine ⟨fun hk => ?_, fun hk hf => ?_, fun st hk hf => ?_, fun hk hf => ?_⟩
  all_goals
    (unfold handler
     rw [hload]
     simp [hm, hie, hq, hg, hne, hret, *])

set_option maxRecDepth 8192 in
/-- Witness for `model_failure_degraded`: all four failure modes on the
demo request yield their degraded results. -/
theorem model_failure_degraded_witness :
    handler noKeyEnv = ⟨200, "The rules engine is currently unavailable. Please check your connection or try again later.", [], false⟩ ∧
    handler netErrEnv = ⟨200, "I had trouble reaching the rules engine. Please check your connection or try again.", [], true⟩ ∧
    handler badStatusEnv = ⟨200, "I had trouble reaching the rules engine. Please check your connection or try again.", [], true⟩ ∧
    handler badJsonEnv = ⟨200, "I had trouble reaching the rules engine. Please check your connection or try again.", [], true⟩ :=
  ⟨(model_failure_degraded noKeyEnv demoChunks rfl rfl (by decide) (by decide) rfl
      (by decide) (by decide)).1 (by decide),
   (model_failure_degraded netErrEnv demoChunks rfl rfl (by decide) (by decide) rfl
      (by decide) (by decide)).2.1 (by decide) rfl,
   (model_failure_degraded badStatusEnv demoChunks rfl rfl (by decide) (by decide) rfl
      (by decide) (by decide)).2.2.1 500 (by decide) rfl,
   (model_failure_degraded badJsonEnv demoChunks rfl rfl (by decide) (by decide) rfl
      (by decide) (by decide)).2.2.2 (by decide) rfl⟩

set_option maxRecDepth 8192 in
/-- C1 counterexample: a successful request whose model answer is `"..."`
produces a non-empty endpoint answer, yet the client-side safety net turns
it into the empty string — no static "no answer" text is substituted after
splitting, refuting the claim that the final displayed answer is never
empty. -/
theorem pipeline_empty_final_answer :
    (handler dotsEnv).answer = "..." ∧
    clientAnswer ((handler dotsEnv).answer) = "" := by decide

/-- C1 (amended): the endpoint's `answer` field is never empty, and the
client substitutes the static no-match string only when the response
answer is itself empty; the final client text is non-empty exactly when
the (possibly substituted) answer splits into at least one non-empty
sentence, and is the empty string when zero sentences survive. -/
theorem pipeline_answer_nonempty_cases :
    (∀ env : HandlerEnv, (handler env).answer ≠ "") ∧
    (∀ a : String, sentencesOf (if a = "" then noMatchMsg else a) ≠ [] →
      clientAnswer a ≠ "") ∧
    (∀ a : String, sentencesOf (if a = "" then noMatchMsg else a) = [] →
      clientAnswer a = "") := by
  refine ⟨handler_answer_ne_empty, fun a h => ?_, fun a h => ?_⟩
  · show limitAnswer (if a = "" then noMatchMsg else a) ≠ ""
    exact limitAnswer_ne_empty h
  · show limitAnswer (if a = "" then noMatchMsg else a) = ""
    exact limitAnswer_nil h

set_option maxRecDepth 8192 in
/-- Witness for `pipeline_answer_nonempty_cases` at concrete inputs. -/
theorem pipeline_answer_nonempty_cases_witness :
    (handler demoEnv).answer ≠ "" ∧
    clientAnswer "hello" ≠ "" ∧
    clientAnswer "..." = "" :=
  ⟨pipeline_answer_nonempty_cases.1 demoEnv,
   pipeline_answer_nonempty_cases.2.1 "hello" (by decide),
   pipeline_answer_nonempty_cases.2.2 "..." (by decide)⟩

/-- C10: every handler response, on every path, carries a non-empty
`answer` string and one of the statuses 200, 400, 404, 405, 500 (the
`sources` field is an array by construction of `HandlerResult`). -/
theorem handler_response_wellformed (env : HandlerEnv) :
    (handler env).answer ≠ "" ∧
    (handler env).status ∈ ([200, 400, 404, 405, 500] : List Nat) :=
  ⟨handler_answer_ne_empty env, handler_status_mem env⟩

set_option maxRecDepth 8192 in
/-- C9 counterexample: re-applying the three-sentence limit to an
already-limited two-sentence answer inserts an extra space after the
sentence separator, so the transformation is not idempotent. -/
theorem limitAnswer_not_idempotent :
    limitAnswer (limitAnswer "a. b") ≠ limitAnswer "a. b" := by decide

/-- C9 (amended): the three-sentence limiting transformation is idempotent
on answers with at most one non-empty sentence; for two or more sentences
re-application adds one space after each `". "` separator (see the
counterexample), because split sentences keep their leading spaces. -/
theorem limitAnswer_idempotent_of_single (s : String)
    (h : (sentencesOf s).length ≤ 1) :
    limitAnswer (limitAnswer s) = limitAnswer s := by
  cases hsent : sentencesOf s with
  | nil =>
    rw [limitAnswer_nil hsent]
    decide
  | cons t ts =>
    cases ts with
    | nil =>
      rw [limitAnswer_single hsent]
      have hmem : t ∈ sentencesOf s := by
        rw [hsent]
        exact List.mem_cons_self t []
      obtain ⟨htr, hpf⟩ := mem_sentencesOf hmem
      exact limitAnswer_single (sentencesOf_single_fix t hpf htr)
    | cons t2 ts2 =>
      rw [hsent] at h
      simp at h

set_option maxRecDepth 8192 in
/-- Witness for `limitAnswer_idempotent_of_single` at a one-sentence
answer. -/
theorem limitAnswer_idempotent_of_single_witness :
    limitAnswer (limitAnswer "hello") = limitAnswer "hello" :=
  limitAnswer_idempotent_of_single "hello" (by decide)

set_option maxRecDepth 8192 in
/-- C7 counterexample: starting from a fresh press with the button held,
after the third consecutive `network` error the session is *not* in the
fatal error state — `isHolding` is still set, the transient
"retry 3/3" message is shown, and a third retry is pending. -/
theorem third_network_error_still_retries :
    (run threeErrTrace freshSession).isHolding = true ∧
    (run threeErrTrace freshSession).error = some (retryMsg 3) ∧
    (run threeErrTrace freshSession).retryPending = true := by decide

set_option maxRecDepth 8192 in
/-- C7 (amended): it takes a *fourth* consecutive `network` error to reach
the fatal state: after it, `isHolding` is cleared, `retryCount` is reset,
the guidance message is surfaced, no further retry is pending, and no
start beyond the initial press plus the three retries was ever requested. -/
theorem fourth_network_error_fatal :
    (run fourErrTrace freshSession).isHolding = false ∧
    (run fourErrTrace freshSession).error = some fatalNetworkMsg ∧
    (run fourErrTrace freshSession).retryCount = 0 ∧
    (run fourErrTrace freshSession).retryPending = false ∧
    (run fourErrTrace freshSession).startRequests = 4 := by decide

/-- C8: on every `onend` event while `isHolding` is still true (and the
recognition object exists), a delayed restart is scheduled without an
immediate start request; when the delay elapses the capability start is
re-requested exactly if `isHolding` is still true, and not at all if the
button was released in the meantime. -/
theorem onend_auto_restart (s t u : Session)
    (hs : s.isHolding = true) (hsr : s.hasRecognition = true)
    (ht : t.isHolding = true) (htr : t.hasRecognition = true)
    (hu : u.isHolding = false) :
    (step .ended s).restartPending = true ∧
    (step .ended s).startRequests = s.startRequests ∧
    (step .restartTimer t).startRequests = t.startRequests + 1 ∧
    (step .restartTimer u).startRequests = u.startRequests := by
  refine ⟨?_, ?_, ?_, ?_⟩ <;> simp [step, hs, hsr, ht, htr, hu]

/-- Witness for `onend_auto_restart` at concrete held and released
session states. -/
theorem onend_auto_restart_witness :
    (step .ended heldSession).restartPending = true ∧
    (step .restartTimer heldSession).startRequests = heldSession.startRequests + 1 ∧
    (step .restartTimer releasedSession).startRequests = releasedSession.startRequests :=
  ⟨(onend_auto_restart heldSession heldSession releasedSession rfl rfl rfl rfl rfl).1,
   (onend_auto_restart heldSession heldSession releasedSession rfl rfl rfl rfl rfl).2.2.1,
   (onend_auto_restart heldSession heldSession releasedSession rfl rfl rfl rfl rfl).2.2.2⟩
